import Mathlib

/-!
Verification of the Nod.AI desktop client core: the backend runtime
supervisor (extraction, spawn, shutdown) and the streaming chat session
protocol, shallowly embedded from the Electron main process
(src/unnamed/part_004) and the chat page (src/frontend/src/pages/chat).
-/

namespace NodAI

/-! ## Runtime installation state (ensureProductionBackend, src/unnamed/part_004)

The on-disk state the extractor inspects: whether the runtime payload
(the venv directory inside the runtime dir) is present, and the content of
the .version marker file (none when the file is absent). -/

structure Disk where
  venv : Bool
  marker : Option String
  deriving Repr, DecidableEq

/-- Whitespace trimming (the trim of JS strings), written on the character
list so that it evaluates by kernel reduction. -/
def jsTrim (s : String) : String :=
  String.mk (((s.data.dropWhile Char.isWhitespace).reverse.dropWhile
    Char.isWhitespace).reverse)

/-- The needsExtract computation of ensureProductionBackend: start from true;
only when the venv payload exists is the marker consulted, and only when the
marker file exists does the (trimmed) content comparison decide. -/
def needsExtract (d : Disk) (currentVersion : String) : Bool :=
  if d.venv then
    match d.marker with
    | some existing => jsTrim existing != currentVersion
    | none => true
  else true

/-- Disk state after a completed destructive re-extraction: the payload is
present and the marker holds the current version (written as the last step). -/
def extractedDisk (currentVersion : String) : Disk :=
  { venv := true, marker := some currentVersion }

/-- The fixed runtime directory path (userData/backend-runtime). -/
def runtimeDirPath : String := "userData/backend-runtime"

structure ExtractRun where
  finalDisk : Disk
  didExtract : Bool
  result : Except String String
  deriving Repr

/-- One un-memoized run of the async body of ensureProductionBackend, on the
success path: archive presence is checked first, then needsExtract decides
whether a destructive re-extraction (rm, mkdir, tar.x, marker write) happens. -/
def ensureExtractedOnce (archivePresent : Bool) (d : Disk) (currentVersion : String) :
    ExtractRun :=
  if !archivePresent then
    { finalDisk := d, didExtract := false, result := .error ("Backend archive missing") }
  else if needsExtract d currentVersion then
    { finalDisk := extractedDisk currentVersion, didExtract := true,
      result := .ok runtimeDirPath }
  else
    { finalDisk := d, didExtract := false, result := .ok runtimeDirPath }

/-- A disk state reachable when a destructive re-extraction starting from `d`
fails before the final marker write. Either the recursive remove itself did
not complete (the marker is still the old one or already gone, and the payload
can only be present if it was present before), or the remove completed and a
later step (mkdir or unpack) failed, leaving the marker absent and the payload
in an arbitrary partially populated state. The marker write is the last step,
so no failed run ever produces a freshly written marker. -/
inductive FailedBeforeMark (d : Disk) : Disk → Prop
  | duringRemove (v : Bool) (m : Option String) :
      (v = true → d.venv = true) → (m = d.marker ∨ m = none) →
      FailedBeforeMark d ⟨v, m⟩
  | afterRemove (v : Bool) : FailedBeforeMark d ⟨v, none⟩

/-! ## In-process memoization of the extraction (backendExtractPromise) -/

structure ExtractorState where
  pendingPromise : Option String
  unpacks : Nat
  deriving Repr, DecidableEq

/-- One call to ensureProductionBackend at the level of the module state: if
backendExtractPromise is set, the caller joins the shared promise and no disk
work happens; otherwise the async body runs (with `unpackOk` modelling whether
the tar unpack itself succeeds), the promise is memoized on success, and the
attached catch resets the promise to null on failure so a later call retries.
A failed unpack leaves a partially populated tree without a marker. -/
def ensureCall (archivePresent : Bool) (unpackOk : Bool) (s : ExtractorState)
    (d : Disk) (currentVersion : String) :
    ExtractorState × Disk × Except String String :=
  match s.pendingPromise with
  | some p => (s, d, .ok p)
  | none =>
      if !archivePresent then
        ({ pendingPromise := none, unpacks := s.unpacks }, d,
          .error ("Backend archive missing"))
      else if needsExtract d currentVersion then
        if unpackOk then
          ({ pendingPromise := some runtimeDirPath, unpacks := s.unpacks + 1 },
            extractedDisk currentVersion, .ok runtimeDirPath)
        else
          ({ pendingPromise := none, unpacks := s.unpacks },
            { venv := true, marker := none }, .error ("unpack failed"))
      else
        ({ pendingPromise := some runtimeDirPath, unpacks := s.unpacks }, d,
          .ok runtimeDirPath)

end NodAI

namespace NodAI

/-- C1: ensureExtracted re-extracts iff the payload is absent, the marker is
absent, or the marker differs from the current version; a completed
re-extraction leaves the payload present with the marker written last; and
any run that fails before the marker write leaves a state on which the next
call still decides to re-extract. -/
theorem ensureExtracted_version_gated (d : Disk) (c : String) :
    ((ensureExtractedOnce true d c).didExtract = needsExtract d c)
    ∧ ((ensureExtractedOnce true d c).didExtract = true →
        (ensureExtractedOnce true d c).finalDisk = extractedDisk c)
    ∧ (∀ f : Disk, needsExtract d c = true → FailedBeforeMark d f →
        needsExtract f c = true) := by
  refine ⟨?_, ?_, ?_⟩
  · by_cases h : needsExtract d c <;> simp [ensureExtractedOnce, h]
  · intro hx
    by_cases h : needsExtract d c <;> simp [ensureExtractedOnce, h] at hx ⊢
  · intro f hd hf
    cases hf with
    | duringRemove v m hv hm =>
        cases hm with
        | inl hmm =>
            subst hmm
            cases v with
            | false => simp [needsExtract]
            | true =>
                have hdv : d.venv = true := hv rfl
                simpa [needsExtract, hdv] using hd
        | inr hmm =>
            subst hmm
            cases v <;> simp [needsExtract]
    | afterRemove v =>
        cases v <;> simp [needsExtract]

theorem ensureExtracted_version_gated_witness :
    ((ensureExtractedOnce true ⟨true, some ("1.0.0")⟩ ("1.1.0")).didExtract
        = needsExtract ⟨true, some ("1.0.0")⟩ ("1.1.0"))
    ∧ ((ensureExtractedOnce true ⟨true, some ("1.0.0")⟩ ("1.1.0")).didExtract = true →
        (ensureExtractedOnce true ⟨true, some ("1.0.0")⟩ ("1.1.0")).finalDisk
          = extractedDisk "1.1.0")
    ∧ (∀ f : Disk, needsExtract ⟨true, some ("1.0.0")⟩ ("1.1.0") = true →
        FailedBeforeMark ⟨true, some ("1.0.0")⟩ f → needsExtract f "1.1.0" = true) :=
  ensureExtracted_version_gated ⟨true, some ("1.0.0")⟩ ("1.1.0")

/-- C2: starting with no memoized promise, a first successful ensureExtracted
call performs the single destructive unpack exactly when extraction is needed,
and a second call (concurrent or later) joins the memoized shared promise: it
changes no state, performs no further unpack, and returns the same path. -/
theorem ensureExtracted_idempotent (s : ExtractorState) (d : Disk) (c : String)
    (h : s.pendingPromise = none) :
    let first := ensureCall true true s d c
    let second := ensureCall true true first.1 first.2.1 c
    second.1 = first.1 ∧ second.2.1 = first.2.1 ∧ second.2.2 = first.2.2
    ∧ first.2.2 = .ok runtimeDirPath
    ∧ (needsExtract d c = true → first.1.unpacks = s.unpacks + 1)
    ∧ (needsExtract d c = false → first.1.unpacks = s.unpacks) := by
  intro first second
  by_cases hn : needsExtract d c
  · have hfirst : first = ({ pendingPromise := some runtimeDirPath, unpacks := s.unpacks + 1 },
        extractedDisk c, .ok runtimeDirPath) := by
      simp [first, ensureCall, h, hn]
    refine ⟨?_, ?_, ?_, ?_, ?_, ?_⟩ <;>
      simp [second, hfirst, ensureCall, hn]
  · have hfirst : first = ({ pendingPromise := some runtimeDirPath, unpacks := s.unpacks },
        d, .ok runtimeDirPath) := by
      simp [first, ensureCall, h, hn]
    refine ⟨?_, ?_, ?_, ?_, ?_, ?_⟩ <;>
      simp [second, hfirst, ensureCall, hn]

theorem ensureExtracted_idempotent_witness :
    (({ pendingPromise := none, unpacks := 0 } : ExtractorState).pendingPromise = none)
    ∧ (let first := ensureCall true true { pendingPromise := none, unpacks := 0 }
          ⟨false, none⟩ ("1.0.0")
       let second := ensureCall true true first.1 first.2.1 "1.0.0"
       second.1 = first.1 ∧ second.2.1 = first.2.1 ∧ second.2.2 = first.2.2
       ∧ first.2.2 = .ok runtimeDirPath
       ∧ (needsExtract ⟨false, none⟩ ("1.0.0") = true → first.1.unpacks = 0 + 1)
       ∧ (needsExtract ⟨false, none⟩ ("1.0.0") = false → first.1.unpacks = 0)) :=
  ⟨rfl, ensureExtracted_idempotent { pendingPromise := none, unpacks := 0 }
    ⟨false, none⟩ ("1.0.0") rfl⟩

/-! ## Process supervisor (startBackend, resolveBackendCommand, cleanup) -/

structure SupervisorState where
  backendProcess : Option Nat
  spawnCount : Nat
  deriving Repr, DecidableEq

/-- Spawning the backend child: a fresh process handle is assigned and the
spawn counter increments. -/
def spawnStep (s : SupervisorState) : SupervisorState :=
  { backendProcess := some s.spawnCount, spawnCount := s.spawnCount + 1 }

/-- The guard at the entry of startBackend, read before the await of
resolveBackendCommand: proceed only when no handle is assigned yet. -/
def startGuardPasses (s : SupervisorState) : Bool := s.backendProcess.isNone

/-- Two startBackend invocations interleaved at the suspension point: both
read the backendProcess guard before either has assigned the handle (the
assignment happens only after the awaited resolveBackendCommand returns),
then each proceeds to spawn if its guard read passed. -/
def interleavedStarts (s : SupervisorState) : SupervisorState :=
  let g1 := startGuardPasses s
  let g2 := startGuardPasses s
  let s1 := if g1 then spawnStep s else s
  if g2 then spawnStep s1 else s1

def initialSupervisor : SupervisorState := { backendProcess := none, spawnCount := 0 }

/-- C3: the code violates the single-instance claim. Two start() calls whose
executions interleave at the await before the handle assignment both pass the
null-handle guard and both spawn: the run ends with two spawned children, not
exactly one. -/
theorem startBackend_concurrent_double_spawn :
    (interleavedStarts initialSupervisor).spawnCount = 2
    ∧ ¬ (interleavedStarts initialSupervisor).spawnCount = 1 := by
  constructor <;> decide

/-! ### Command resolution (resolveBackendCommand) -/

structure BackendCommand where
  command : String
  args : List String
  cwd : String
  description : String
  deriving Repr, DecidableEq

def uvicornArgs : List String :=
  ["-m", "uvicorn", "app.app:app", "--host", "127.0.0.1", "--port", "8000"]

/-- Interpreter path inside the development source tree. -/
def devPythonPath : String := "backend/venv/bin/python"

/-- Interpreter path inside an extracted runtime directory. -/
def prodPythonPath (runtimeDir : String) : String := runtimeDir ++ "/venv/bin/python"

/-- resolveBackendCommand: in the development profile (dev server URL set) the
venv interpreter is returned with no existence check; in the production
profile the runtime is ensured via ensureProductionBackend and the interpreter
inside it must exist on disk (fsExists models fs.existsSync), else the call
fails before any spawn. -/
def resolveBackendCommand (devMode : Bool) (fsExists : String → Bool)
    (archivePresent : Bool) (unpackOk : Bool)
    (s : ExtractorState) (d : Disk) (currentVersion : String) :
    (ExtractorState × Disk) × Except String BackendCommand :=
  if devMode then
    ((s, d), .ok { command := devPythonPath, args := uvicornArgs,
                   cwd := "backend", description := "development venv" })
  else
    let r := ensureCall archivePresent unpackOk s d currentVersion
    match r.2.2 with
    | .error e => ((r.1, r.2.1), .error e)
    | .ok runtimeDir =>
        let python := prodPythonPath runtimeDir
        if fsExists python then
          ((r.1, r.2.1), .ok { command := python, args := uvicornArgs,
                               cwd := runtimeDir, description := "packaged backend runtime" })
        else
          ((r.1, r.2.1), .error ("Python runtime not found at " ++ python))

/-! ### startBackend and the app startup sequence -/

/-- The environment a startup run sees: which profile is active, what is on
disk, and how the spawned child behaves afterwards. -/
structure Env where
  devMode : Bool
  fsExists : String → Bool
  archivePresent : Bool
  unpackOk : Bool
  appVersion : String
  spawnEmitsError : Bool
  childExitCode : Option Int

structure AppState where
  sup : SupervisorState
  ext : ExtractorState
  disk : Disk
  windowCreated : Bool
  loggedErrors : Nat
  deriving Repr, DecidableEq

/-- startBackend: return early when a handle exists; otherwise resolve the
command (catching any rejection: the failure is logged and no process is
spawned) and spawn. The whole body is inside try/catch, so the function never
rejects to its caller. -/
def startBackend (env : Env) (a : AppState) : AppState :=
  if a.sup.backendProcess.isSome then a
  else
    let r := resolveBackendCommand env.devMode env.fsExists env.archivePresent
      env.unpackOk a.ext a.disk env.appVersion
    match r.2 with
    | .error _ =>
        { a with ext := r.1.1, disk := r.1.2, loggedErrors := a.loggedErrors + 1 }
    | .ok _ =>
        { a with ext := r.1.1, disk := r.1.2, sup := spawnStep a.sup }

/-- The error event handler registered on the spawned child: log and reset the
handle to null. -/
def deliverSpawnError (a : AppState) : AppState :=
  { a with sup := { a.sup with backendProcess := none },
           loggedErrors := a.loggedErrors + 1 }

/-- The exit event handler: log when the code is nonzero and non-null, and
reset the handle to null in every case. -/
def deliverChildExit (code : Option Int) (a : AppState) : AppState :=
  { a with sup := { a.sup with backendProcess := none },
           loggedErrors := a.loggedErrors +
             (match code with
              | some c => if c = 0 then 0 else 1
              | none => 0) }

/-- app.whenReady: await startBackend, then create the window; followed by the
asynchronous child events the environment delivers (a spawn error, an exit). -/
def startupRun (env : Env) (a : AppState) : AppState :=
  let a1 := startBackend env a
  let a2 := { a1 with windowCreated := true }
  let a3 := if env.spawnEmitsError && a2.sup.backendProcess.isSome
    then deliverSpawnError a2 else a2
  match env.childExitCode with
  | some code =>
      if a3.sup.backendProcess.isSome then deliverChildExit (some code) a3 else a3
  | none => a3

/-- A development environment in which no interpreter path exists on disk. -/
def devEnvNoInterpreter : Env :=
  { devMode := true, fsExists := fun _ => false, archivePresent := true,
    unpackOk := true, appVersion := "1.0.0", spawnEmitsError := false,
    childExitCode := none }

def initialApp : AppState :=
  { sup := initialSupervisor, ext := { pendingPromise := none, unpacks := 0 },
    disk := ⟨false, none⟩, windowCreated := false, loggedErrors := 0 }

/-- C8 counterexample: in the development profile with a missing interpreter
(no path exists on disk), startBackend still spawns a process — the resolution
succeeds without any existence check, so the failure is not detected before
spawn as the claim states for both profiles. -/
theorem dev_profile_spawns_without_interpreter_check :
    devEnvNoInterpreter.fsExists devPythonPath = false
    ∧ (startBackend devEnvNoInterpreter initialApp).sup.spawnCount = 1
    ∧ (startBackend devEnvNoInterpreter initialApp).loggedErrors = 0 := by
  refine ⟨rfl, ?_, ?_⟩ <;> rfl

/-- C8 amended: fail-fast holds in the production profile: when the archive is
available and extraction succeeds but the interpreter inside the extracted
runtime does not exist on disk, start() signals the failure (logged, no handle)
without spawning any process. -/
theorem prod_missing_interpreter_fails_fast (env : Env) (a : AppState)
    (hdev : env.devMode = false)
    (harch : env.archivePresent = true)
    (hunpack : env.unpackOk = true)
    (hpending : a.ext.pendingPromise = none)
    (hbp : a.sup.backendProcess = none)
    (hpy : env.fsExists (prodPythonPath runtimeDirPath) = false) :
    (startBackend env a).sup.spawnCount = a.sup.spawnCount
    ∧ (startBackend env a).sup.backendProcess = none
    ∧ (startBackend env a).loggedErrors = a.loggedErrors + 1 := by
  by_cases hn : needsExtract a.disk env.appVersion
  · refine ⟨?_, ?_, ?_⟩ <;>
      simp [startBackend, hbp, resolveBackendCommand, hdev, harch, hunpack,
        ensureCall, hpending, hn, hpy]
  · refine ⟨?_, ?_, ?_⟩ <;>
      simp [startBackend, hbp, resolveBackendCommand, hdev, harch, hunpack,
        ensureCall, hpending, hn, hpy]

/-- A production environment whose disk has an extracted runtime but no
interpreter anywhere. -/
def prodEnvNoInterpreter : Env :=
  { devMode := false, fsExists := fun _ => false, archivePresent := true,
    unpackOk := true, appVersion := "1.0.0", spawnEmitsError := false,
    childExitCode := none }

theorem prod_missing_interpreter_fails_fast_witness :
    (prodEnvNoInterpreter.devMode = false
      ∧ prodEnvNoInterpreter.archivePresent = true
      ∧ prodEnvNoInterpreter.unpackOk = true
      ∧ initialApp.ext.pendingPromise = none
      ∧ initialApp.sup.backendProcess = none
      ∧ prodEnvNoInterpreter.fsExists (prodPythonPath runtimeDirPath) = false)
    ∧ ((startBackend prodEnvNoInterpreter initialApp).sup.spawnCount
        = initialApp.sup.spawnCount
      ∧ (startBackend prodEnvNoInterpreter initialApp).sup.backendProcess = none
      ∧ (startBackend prodEnvNoInterpreter initialApp).loggedErrors
        = initialApp.loggedErrors + 1) :=
  ⟨⟨rfl, rfl, rfl, rfl, rfl, rfl⟩,
    prod_missing_interpreter_fails_fast prodEnvNoInterpreter initialApp
      rfl rfl rfl rfl rfl rfl⟩

/-! ### Shutdown discipline (cleanup and the termination handlers) -/

structure HostState where
  backendProcess : Option Nat
  killSignalsSent : Nat
  deriving Repr, DecidableEq

/-- cleanup: when a child handle exists, send it SIGINT (the handler catches a
kill failure, so the attempt is always made) and clear the handle; otherwise
do nothing. -/
def cleanup (h : HostState) : HostState :=
  match h.backendProcess with
  | some _ => { backendProcess := none, killSignalsSent := h.killSignalsSent + 1 }
  | none => h

/-- The termination paths the host process can take. window-all-closed is a
termination path only off macOS (on macOS the app keeps running there). -/
inductive TerminationPath
  | processExit
  | sigint
  | sigterm
  | windowAllClosedNonDarwin
  | beforeQuit
  deriving Repr, DecidableEq

/-- The handler chain each termination path runs before the host process is
gone: the exit event runs cleanup; SIGINT and SIGTERM run cleanup and then
process.exit, whose exit event runs cleanup again; window-all-closed (non
macOS) runs cleanup then app.quit, which fires before-quit (cleanup) and then
process exit (cleanup); before-quit runs cleanup and process exit follows. -/
def runTermination : TerminationPath → HostState → HostState
  | .processExit, h => cleanup h
  | .sigint, h => cleanup (cleanup h)
  | .sigterm, h => cleanup (cleanup h)
  | .windowAllClosedNonDarwin, h => cleanup (cleanup (cleanup h))
  | .beforeQuit, h => cleanup (cleanup h)

/-- C9: on every termination path, a running child is sent exactly one
termination signal before the host exits, and the handle is cleared — a
running child is never orphaned. -/
theorem shutdown_kills_running_child (p : TerminationPath) (h : HostState)
    (hrun : h.backendProcess.isSome = true) :
    (runTermination p h).killSignalsSent = h.killSignalsSent + 1
    ∧ (runTermination p h).backendProcess = none := by
  obtain ⟨pid, hpid⟩ := Option.isSome_iff_exists.mp hrun
  cases p <;> simp [runTermination, cleanup, hpid]

theorem shutdown_kills_running_child_witness :
    (({ backendProcess := some 0, killSignalsSent := 0 } : HostState).backendProcess.isSome
        = true)
    ∧ ((runTermination .sigterm { backendProcess := some 0, killSignalsSent := 0 }).killSignalsSent
        = 0 + 1
      ∧ (runTermination .sigterm { backendProcess := some 0, killSignalsSent := 0 }).backendProcess
        = none) :=
  ⟨rfl, shutdown_kills_running_child .sigterm
    { backendProcess := some 0, killSignalsSent := 0 } rfl⟩

/-! ### Startup failure containment -/

/-- The failure modes of a startup run: a missing archive or a failed unpack
in the production profile, a missing production interpreter, a spawn error
event, or a child exit. -/
def startupFailure (env : Env) (a : AppState) : Prop :=
  (env.devMode = false ∧ env.archivePresent = false)
  ∨ (env.devMode = false ∧ env.unpackOk = false
      ∧ needsExtract a.disk env.appVersion = true)
  ∨ (env.devMode = false ∧ env.fsExists (prodPythonPath runtimeDirPath) = false)
  ∨ env.spawnEmitsError = true
  ∨ env.childExitCode.isSome = true

lemma startupRun_windowCreated (env : Env) (a : AppState) :
    (startupRun env a).windowCreated = true := by
  unfold startupRun deliverSpawnError deliverChildExit
  cases env.childExitCode <;> dsimp only <;> (repeat' split) <;> simp

lemma startupRun_ext (env : Env) (a : AppState) :
    (startupRun env a).ext = (startBackend env a).ext := by
  unfold startupRun deliverSpawnError deliverChildExit
  cases env.childExitCode <;> dsimp only <;> (repeat' split) <;> simp

lemma startupRun_bp_of_start_none (env : Env) (a : AppState)
    (h : (startBackend env a).sup.backendProcess = none) :
    (startupRun env a).sup.backendProcess = none := by
  unfold startupRun
  cases env.childExitCode <;>
    simp [h, deliverSpawnError, deliverChildExit]

lemma startupRun_bp_of_spawnError (env : Env) (a : AppState)
    (h : env.spawnEmitsError = true) :
    (startupRun env a).sup.backendProcess = none := by
  unfold startupRun
  cases hb : (startBackend env a).sup.backendProcess <;>
    cases env.childExitCode <;>
      simp [h, hb, deliverSpawnError, deliverChildExit]

lemma startupRun_bp_of_childExit (env : Env) (a : AppState) (c : Int)
    (h : env.childExitCode = some c) :
    (startupRun env a).sup.backendProcess = none := by
  unfold startupRun
  rw [h]
  cases hb : (startBackend env a).sup.backendProcess <;>
    cases henv : env.spawnEmitsError <;>
      simp [hb, deliverSpawnError, deliverChildExit]

lemma startBackend_of_resolve_error (env : Env) (a : AppState)
    (hbp : a.sup.backendProcess = none)
    (herr : (resolveBackendCommand env.devMode env.fsExists env.archivePresent
      env.unpackOk a.ext a.disk env.appVersion).2.isOk = false) :
    (startBackend env a).sup.backendProcess = none
    ∧ (startBackend env a).ext = (resolveBackendCommand env.devMode env.fsExists
        env.archivePresent env.unpackOk a.ext a.disk env.appVersion).1.1 := by
  unfold startBackend
  rw [hbp]
  cases hres : (resolveBackendCommand env.devMode env.fsExists env.archivePresent
      env.unpackOk a.ext a.disk env.appVersion).2 with
  | error e => simp [hres, hbp]
  | ok cmd => rw [hres] at herr; simp [Except.isOk, Except.toBool] at herr

lemma resolve_prod_error_cases (env : Env) (a : AppState)
    (hdev : env.devMode = false)
    (hpending : a.ext.pendingPromise = none)
    (hfail : env.archivePresent = false
      ∨ (env.unpackOk = false ∧ needsExtract a.disk env.appVersion = true)
      ∨ env.fsExists (prodPythonPath runtimeDirPath) = false) :
    (resolveBackendCommand env.devMode env.fsExists env.archivePresent
      env.unpackOk a.ext a.disk env.appVersion).2.isOk = false := by
  cases harch : env.archivePresent with
  | false =>
      simp [resolveBackendCommand, hdev, ensureCall, hpending, harch,
        Except.isOk, Except.toBool]
  | true =>
      cases hn : needsExtract a.disk env.appVersion with
      | false =>
          rcases hfail with h | ⟨_, h⟩ | h
          · exact absurd harch (by simp [h])
          · exact absurd hn (by simp [h])
          · simp [resolveBackendCommand, hdev, ensureCall, hpending, harch, hn, h,
              Except.isOk, Except.toBool]
      | true =>
          cases hu : env.unpackOk with
          | false =>
              simp [resolveBackendCommand, hdev, ensureCall, hpending, harch, hn, hu,
                Except.isOk, Except.toBool]
          | true =>
              rcases hfail with h | ⟨h, _⟩ | h
              · exact absurd harch (by simp [h])
              · exact absurd hu (by simp [h])
              · simp [resolveBackendCommand, hdev, ensureCall, hpending, harch, hn, hu,
                  h, Except.isOk, Except.toBool]

/-- C10: startBackend is total (every failure is caught and only logged), so
the window is created on every startup run; in every failure mode the backend
handle ends null so a subsequent start() passes the guard; and when extraction
itself failed (missing archive, failed unpack) the memoized promise is reset,
so the next attempt re-extracts. -/
theorem startBackend_failures_contained (env : Env) (a : AppState)
    (hbp : a.sup.backendProcess = none)
    (hpending : a.ext.pendingPromise = none) :
    (startupRun env a).windowCreated = true
    ∧ (startupFailure env a → (startupRun env a).sup.backendProcess = none)
    ∧ (env.devMode = false ∧ env.archivePresent = false →
        (startupRun env a).ext.pendingPromise = none)
    ∧ (env.devMode = false ∧ env.archivePresent = true ∧ env.unpackOk = false
        ∧ needsExtract a.disk env.appVersion = true →
        (startupRun env a).ext.pendingPromise = none) := by
  refine ⟨startupRun_windowCreated env a, ?_, ?_, ?_⟩
  · intro hfail
    rcases hfail with ⟨hdev, h⟩ | ⟨hdev, h1, h2⟩ | ⟨hdev, h⟩ | h | h
    · exact startupRun_bp_of_start_none env a
        (startBackend_of_resolve_error env a hbp
          (resolve_prod_error_cases env a hdev hpending (Or.inl h))).1
    · exact startupRun_bp_of_start_none env a
        (startBackend_of_resolve_error env a hbp
          (resolve_prod_error_cases env a hdev hpending (Or.inr (Or.inl ⟨h1, h2⟩)))).1
    · exact startupRun_bp_of_start_none env a
        (startBackend_of_resolve_error env a hbp
          (resolve_prod_error_cases env a hdev hpending (Or.inr (Or.inr h)))).1
    · exact startupRun_bp_of_spawnError env a h
    · obtain ⟨c, hc⟩ := Option.isSome_iff_exists.mp h
      exact startupRun_bp_of_childExit env a c hc
  · rintro ⟨hdev, harch⟩
    have hext := (startBackend_of_resolve_error env a hbp
      (resolve_prod_error_cases env a hdev hpending (Or.inl harch))).2
    rw [startupRun_ext, hext]
    simp [resolveBackendCommand, hdev, ensureCall, hpending, harch]
  · rintro ⟨hdev, harch, hu, hn⟩
    have hext := (startBackend_of_resolve_error env a hbp
      (resolve_prod_error_cases env a hdev hpending (Or.inr (Or.inl ⟨hu, hn⟩)))).2
    rw [startupRun_ext, hext]
    simp [resolveBackendCommand, hdev, ensureCall, hpending, harch, hn, hu]

/-- A production environment whose backend archive is missing. -/
def prodEnvNoArchive : Env :=
  { devMode := false, fsExists := fun _ => true, archivePresent := false,
    unpackOk := true, appVersion := "1.0.0", spawnEmitsError := false,
    childExitCode := none }

theorem startBackend_failures_contained_witness :
    (initialApp.sup.backendProcess = none
      ∧ initialApp.ext.pendingPromise = none)
    ∧ ((startupRun prodEnvNoArchive initialApp).windowCreated = true
      ∧ (startupFailure prodEnvNoArchive initialApp →
          (startupRun prodEnvNoArchive initialApp).sup.backendProcess = none)
      ∧ (prodEnvNoArchive.devMode = false ∧ prodEnvNoArchive.archivePresent = false →
          (startupRun prodEnvNoArchive initialApp).ext.pendingPromise = none)
      ∧ (prodEnvNoArchive.devMode = false ∧ prodEnvNoArchive.archivePresent = true
          ∧ prodEnvNoArchive.unpackOk = false
          ∧ needsExtract initialApp.disk prodEnvNoArchive.appVersion = true →
          (startupRun prodEnvNoArchive initialApp).ext.pendingPromise = none)) :=
  ⟨⟨rfl, rfl⟩, startBackend_failures_contained prodEnvNoArchive initialApp rfl rfl⟩

end NodAI

namespace NodAI

/-! ## Streaming chat session (Chat.tsx, src/frontend/src/pages/chat) -/

inductive Role
  | user
  | assistant
  deriving Repr, DecidableEq

structure ChatMessage where
  role : Role
  content : String
  deriving Repr, DecidableEq

/-- The onContent handler of send: replace the entry at the assistant index by
an assistant message whose content is the existing content (empty when the
entry is missing or empty) followed by the arriving chunk. -/
def applyContentDelta (msgs : List ChatMessage) (assistantIndex : Nat)
    (chunk : String) : List ChatMessage :=
  msgs.set assistantIndex
    { role := .assistant,
      content := ((msgs[assistantIndex]?).map ChatMessage.content).getD "" ++ chunk }

/-- The content deltas of one session applied in arrival order. -/
def applyContentDeltas (msgs : List ChatMessage) (assistantIndex : Nat)
    (chunks : List String) : List ChatMessage :=
  chunks.foldl (fun m c => applyContentDelta m assistantIndex c) msgs

/-- Concatenation of a delta sequence in arrival order. -/
def concatChunks : List String → String
  | [] => ""
  | c :: cs => c ++ concatChunks cs

lemma applyContentDelta_get (msgs : List ChatMessage) (i : Nat) (s : String)
    (chunk : String) (h : msgs[i]? = some ⟨.assistant, s⟩) :
    (applyContentDelta msgs i chunk)[i]? = some ⟨.assistant, s ++ chunk⟩ := by
  have hi : i < msgs.length := by
    by_contra hge
    rw [List.getElem?_eq_none (Nat.le_of_not_lt hge)] at h
    exact Option.noConfusion h
  unfold applyContentDelta
  rw [List.getElem?_set_self]
  · rw [h]
    rfl
  · exact hi

lemma applyContentDeltas_get (i : Nat) (chunks : List String) :
    ∀ (msgs : List ChatMessage) (s : String), msgs[i]? = some ⟨.assistant, s⟩ →
    (applyContentDeltas msgs i chunks)[i]? =
      some ⟨.assistant, s ++ concatChunks chunks⟩ := by
  induction chunks with
  | nil =>
      intro msgs s h
      simpa [applyContentDeltas, concatChunks, String.append_empty] using h
  | cons c cs ih =>
      intro msgs s h
      have hstep := applyContentDelta_get msgs i s c h
      have := ih (applyContentDelta msgs i c) (s ++ c) hstep
      simpa [applyContentDeltas, concatChunks, String.append_assoc] using this

/-- C4: for every delta sequence delivered in one session, the assistant
turn starting empty at its fixed index ends with exactly the concatenation of
the deltas in arrival order. -/
theorem content_deltas_concat_in_order (msgs : List ChatMessage) (i : Nat)
    (chunks : List String) (h : msgs[i]? = some ⟨.assistant, ""⟩) :
    (applyContentDeltas msgs i chunks)[i]? =
      some ⟨.assistant, concatChunks chunks⟩ := by
  have := applyContentDeltas_get i chunks msgs "" h
  simpa [String.empty_append] using this

theorem content_deltas_concat_in_order_witness :
    (([⟨.user, "hi"⟩, ⟨.assistant, ""⟩] : List ChatMessage)[1]? = some ⟨.assistant, ""⟩)
    ∧ (applyContentDeltas [⟨.user, "hi"⟩, ⟨.assistant, ""⟩] 1 ["Hel", "lo", " world"])[1]?
        = some ⟨.assistant, "Hello world"⟩ := by
  refine ⟨rfl, ?_⟩
  have h := content_deltas_concat_in_order [⟨.user, "hi"⟩, ⟨.assistant, ""⟩] 1
    ["Hel", "lo", " world"] rfl
  have e : concatChunks ["Hel", "lo", " world"] = "Hello world" := rfl
  rw [e] at h
  exact h

/-! ### Cancellation (stopStreaming and the abortable transport) -/

structure StreamChatState where
  messages : List ChatMessage
  assistantIndex : Nat
  loading : Bool
  hasController : Bool
  aborted : Bool
  deriving Repr, DecidableEq

/-- stopStreaming of Chat.tsx: only when an abort controller exists and the
session is loading, trigger the abort signal and clear loading; the
controller itself is kept for the stream cleanup. -/
def stopStreaming (s : StreamChatState) : StreamChatState :=
  if s.hasController && s.loading then
    { s with aborted := true, loading := false }
  else s

/-- Modelled from the spec: the streaming transport (streamChat in
src/frontend/src/lib/api, absent from src/) aborts its read when the
cancellation signal fires, so a content delta reaches the onContent handler
only while the signal has not been triggered; afterwards no further deltas
are applied. -/
def deliverContent (s : StreamChatState) (chunk : String) : StreamChatState :=
  if s.aborted then s
  else { s with messages := applyContentDelta s.messages s.assistantIndex chunk }

inductive StreamAction
  | contentDelta (chunk : String)
  | stop
  deriving Repr, DecidableEq

def stepAction (s : StreamChatState) : StreamAction → StreamChatState
  | .contentDelta c => deliverContent s c
  | .stop => stopStreaming s

def runActions (s : StreamChatState) (acts : List StreamAction) : StreamChatState :=
  acts.foldl stepAction s

lemma runActions_content_live (chunks : List String) :
    ∀ s : StreamChatState, s.aborted = false →
    runActions s (chunks.map .contentDelta) =
      { s with messages := applyContentDeltas s.messages s.assistantIndex chunks } := by
  induction chunks with
  | nil => intro s _; rfl
  | cons c cs ih =>
      intro s hs
      have hstep : stepAction s (.contentDelta c) =
          { s with messages := applyContentDelta s.messages s.assistantIndex c } := by
        simp [stepAction, deliverContent, hs]
      have := ih { s with messages := applyContentDelta s.messages s.assistantIndex c } hs
      simpa [runActions, hstep, applyContentDeltas] using this

lemma runActions_content_aborted (chunks : List String) :
    ∀ s : StreamChatState, s.aborted = true →
    runActions s (chunks.map .contentDelta) = s := by
  induction chunks with
  | nil => intro s _; rfl
  | cons c cs ih =>
      intro s hs
      have hstep : stepAction s (.contentDelta c) = s := by
        simp [stepAction, deliverContent, hs]
      simpa [runActions, hstep] using ih s hs

/-- C5: with deltas applied while live, a cancellation keeps the partial
content; deltas arriving after the cancellation change nothing; and a second
cancellation on the terminal session is a no-op. -/
theorem cancellation_preserves_partial_content (s : StreamChatState)
    (pre suf : List String)
    (hload : s.loading = true) (hctl : s.hasController = true)
    (halive : s.aborted = false)
    (hturn : s.messages[s.assistantIndex]? = some ⟨.assistant, ""⟩) :
    let s1 := runActions s (pre.map .contentDelta)
    let s2 := stopStreaming s1
    s2.messages[s.assistantIndex]? = some ⟨.assistant, concatChunks pre⟩
    ∧ runActions s2 (suf.map .contentDelta) = s2
    ∧ stopStreaming s2 = s2 := by
  intro s1 s2
  have h1 : s1 = { s with messages := applyContentDeltas s.messages s.assistantIndex pre } :=
    runActions_content_live pre s halive
  have hcontent : s1.messages[s.assistantIndex]? = some ⟨.assistant, concatChunks pre⟩ := by
    rw [h1]
    have := applyContentDeltas_get s.assistantIndex pre s.messages "" hturn
    simpa [String.empty_append] using this
  have h2 : s2 = { s1 with aborted := true, loading := false } := by
    show stopStreaming s1 = _
    rw [h1]
    simp [stopStreaming, hctl, hload]
  refine ⟨?_, ?_, ?_⟩
  · rw [h2]
    exact hcontent
  · exact runActions_content_aborted suf s2 (by rw [h2])
  · show stopStreaming s2 = s2
    rw [h2]
    simp [stopStreaming]

def liveSessionState : StreamChatState :=
  { messages := [⟨.user, "q"⟩, ⟨.assistant, ""⟩], assistantIndex := 1,
    loading := true, hasController := true, aborted := false }

theorem cancellation_preserves_partial_content_witness :
    (liveSessionState.loading = true ∧ liveSessionState.hasController = true
      ∧ liveSessionState.aborted = false
      ∧ liveSessionState.messages[liveSessionState.assistantIndex]?
          = some ⟨.assistant, ""⟩)
    ∧ (let s1 := runActions liveSessionState (["Par", "ti"].map .contentDelta)
       let s2 := stopStreaming s1
       s2.messages[liveSessionState.assistantIndex]? = some ⟨.assistant, concatChunks ["Par", "ti"]⟩
       ∧ runActions s2 (["al"].map .contentDelta) = s2
       ∧ stopStreaming s2 = s2) :=
  ⟨⟨rfl, rfl, rfl, rfl⟩,
    cancellation_preserves_partial_content liveSessionState ["Par", "ti"] ["al"]
      rfl rfl rfl rfl⟩

end NodAI

namespace NodAI

/-! ### Reasoning channel (onReasoning handler and the finally block of send) -/

structure ReasoningState where
  messages : List ChatMessage
  currentReasoning : String
  assistantReasoning : List (Nat × String)
  deriving Repr, DecidableEq

inductive WireEvent
  | contentDelta (chunk : String)
  | reasoningDelta (chunk : String)
  deriving Repr, DecidableEq

/-- Event application during streaming: the onContent handler touches only the
transcript entry at the assistant index; the onReasoning handler appends to
the session-local currentReasoning state through a functional update, so it
accumulates on the live value. -/
def applyWire (i : Nat) (s : ReasoningState) : WireEvent → ReasoningState
  | .contentDelta c => { s with messages := applyContentDelta s.messages i c }
  | .reasoningDelta c => { s with currentReasoning := s.currentReasoning ++ c }

/-- One send invocation of Chat.tsx as it treats the reasoning channel. The
executing closure was created in one render, so the plain reads of
currentReasoning inside it see the snapshot from that render, while the
functional updates operate on the live state. The body resets the live buffer,
folds the wire events, and in the finally block tests the snapshot: only when
the snapshot is nonempty does it attach the snapshot (not the live value) to
assistantReasoning and clear the buffer. -/
def sendReasoningRun (i : Nat) (events : List WireEvent) (s0 : ReasoningState) :
    ReasoningState :=
  let snapshot := s0.currentReasoning
  let s1 := { s0 with currentReasoning := "" }
  let s2 := events.foldl (applyWire i) s1
  if snapshot = "" then s2
  else
    { s2 with assistantReasoning := (i, snapshot) :: s2.assistantReasoning,
              currentReasoning := "" }

def freshReasoningState : ReasoningState :=
  { messages := [⟨.user, "q"⟩, ⟨.assistant, ""⟩], currentReasoning := "",
    assistantReasoning := [] }

/-- C6: the code violates the flush-at-termination claim. On a fresh session
receiving reasoning deltas R1 and R2, no reasoning delta touches any message
content (the transcript is unchanged) and the live buffer accumulates R1R2 in
arrival order, but at termination the finally block tests the stale snapshot
of currentReasoning (empty in the render that created the executing send), so
the accumulated trace is never attached to the turn and the buffer is not even
cleared: assistantReasoning stays empty instead of holding R1R2. -/
theorem reasoning_flush_stale_closure :
    (sendReasoningRun 1 [.reasoningDelta "R1", .reasoningDelta "R2"]
        freshReasoningState).messages = freshReasoningState.messages
    ∧ (sendReasoningRun 1 [.reasoningDelta "R1", .reasoningDelta "R2"]
        freshReasoningState).currentReasoning = "R1R2"
    ∧ (sendReasoningRun 1 [.reasoningDelta "R1", .reasoningDelta "R2"]
        freshReasoningState).assistantReasoning = [] := by
  refine ⟨rfl, rfl, rfl⟩

/-! ### Session start gating (the head of send) -/

structure UIModel where
  id : String
  provider : Option String
  downloaded : Option Bool
  deriving Repr, DecidableEq

structure SendState where
  input : String
  modelId : String
  models : List UIModel
  messages : List ChatMessage
  loading : Bool
  deriving Repr, DecidableEq

/-- The conditions under which send returns without doing anything: a blank
trimmed input, an empty model id, or a selected opensource model that is not
downloaded (the alert branch). The loading flag is not consulted. -/
def sendBlocked (s : SendState) : Bool :=
  (jsTrim s.input == "") || (s.modelId == "") ||
    (match s.models.find? (fun m => m.id == s.modelId) with
     | some m => m.provider == some ("opensource") && m.downloaded == some false
     | none => false)

/-- The synchronous head of one send invocation: when not blocked, the user
turn (trimmed input) and the empty assistant placeholder are appended, the
input is cleared and loading is set. -/
def sendStart (s : SendState) : SendState :=
  if sendBlocked s then s
  else
    { s with
      messages := s.messages ++ [⟨.user, jsTrim s.input⟩, ⟨.assistant, ""⟩],
      input := "",
      loading := true }

/-- A state whose session is active (loading) with a fresh nonempty input. -/
def busySendState : SendState :=
  { input := "hi", modelId := "m", models := [⟨"m", none, none⟩],
    messages := [⟨.user, "q"⟩, ⟨.assistant, "prev"⟩], loading := true }

/-- C7 counterexample: while a session is active (loading = true), a second
send invocation with a nonempty input and a selected model is not rejected:
it appends a new user turn and assistant placeholder, mutating the transcript,
contrary to the claim that it leaves all state unchanged. -/
theorem send_not_rejected_while_loading :
    busySendState.loading = true
    ∧ sendStart busySendState ≠ busySendState
    ∧ (sendStart busySendState).messages
      = busySendState.messages ++ [⟨.user, "hi"⟩, ⟨.assistant, ""⟩] := by
  refine ⟨rfl, ?_, ?_⟩
  · decide
  · rfl

/-- C7 amended: send is not gated on the session being active. It returns with
all state unchanged exactly when the trimmed input is blank, no model id is
set, or the selected model is an opensource model not yet downloaded; in every
other case, including while loading, it appends the user turn and the empty
assistant placeholder and marks the session loading. The guard is independent
of the loading flag. -/
theorem send_guard_characterization (s : SendState) :
    (sendBlocked s = true → sendStart s = s)
    ∧ (sendBlocked s = false →
        (sendStart s).messages = s.messages ++ [⟨.user, jsTrim s.input⟩, ⟨.assistant, ""⟩]
        ∧ (sendStart s).loading = true
        ∧ (sendStart s).input = "")
    ∧ (∀ b : Bool, sendBlocked { s with loading := b } = sendBlocked s) := by
  refine ⟨?_, ?_, ?_⟩
  · intro h
    simp [sendStart, h]
  · intro h
    refine ⟨?_, ?_, ?_⟩ <;> simp [sendStart, h]
  · intro b
    rfl

theorem send_guard_characterization_witness :
    ((sendBlocked busySendState = true → sendStart busySendState = busySendState)
      ∧ (sendBlocked busySendState = false →
          (sendStart busySendState).messages
            = busySendState.messages ++ [⟨.user, jsTrim busySendState.input⟩, ⟨.assistant, ""⟩]
          ∧ (sendStart busySendState).loading = true
          ∧ (sendStart busySendState).input = "")
      ∧ (∀ b : Bool, sendBlocked { busySendState with loading := b }
          = sendBlocked busySendState))
    ∧ sendBlocked busySendState = false :=
  ⟨send_guard_characterization busySendState, rfl⟩

end NodAI
